import Mathlib

/-!
Verification of the `linalgo` repository: two fixed-size generic containers,
`Vector<T>` and `SquareMatrix<T>` (crate `linalgo_structs`), plus an older
copy of `SquareMatrix<T>` in the root crate (`src/src/lib.rs`).  Rust
`Vec<Option<T>>` storage is embedded as `List (Option T)`; the fatal
construction panic for `size == 0` is embedded by returning `Option`
(`none` = panic); `&mut self` methods are state-passing functions.
-/

namespace LinalgoStructs

/-- Embeds `linalgo_structs::Vector<T>`: a `size` field and a list of
optional slots (`Vec<Option<T>>`). -/
structure Vector (T : Type) where
  size : Nat
  data : List (Option T)
deriving DecidableEq

/-- Embeds `Vector::new`.  `size == 0` panics (here: `none`); otherwise
`data.resize(size, None)` from an empty vec yields `size` copies of `None`. -/
def Vector.new (T : Type) (size : Nat) : Option (Vector T) :=
  if size = 0 then none
  else some { size := size, data := List.replicate size none }

/-- Embeds `Vector::get`: `self.data.get(position)?.as_ref()`. -/
def Vector.get {T : Type} (v : Vector T) (position : Nat) : Option T :=
  match v.data[position]? with
  | some entry => entry
  | none => none

/-- Embeds `Vector::set`: write through `data.get_mut(position)` when it
succeeds (position in bounds), otherwise do nothing. -/
def Vector.set {T : Type} (v : Vector T) (position : Nat) (value : T) : Vector T :=
  if position < v.data.length then
    { v with data := v.data.set position (some value) }
  else v

/-- Embeds `Vector::set_all_to`: every entry of `data` becomes
`Some(value.clone())`. -/
def Vector.set_all_to {T : Type} (v : Vector T) (value : T) : Vector T :=
  { v with data := v.data.map (fun _ => some value) }

/-- Structural invariant of `Vector`: the backing storage has exactly
`size` slots. -/
def Vector.WF {T : Type} (v : Vector T) : Prop :=
  v.data.length = v.size

/-- Embeds `linalgo_structs::SquareMatrix<T>`: a `size` field and a list of
rows, each a list of optional slots (`Vec<Vec<Option<T>>>`). -/
structure SquareMatrix (T : Type) where
  size : Nat
  data : List (List (Option T))
deriving DecidableEq

/-- Embeds `SquareMatrix::new`: panic on `size == 0`; otherwise
`row.resize(size, None)` then `data.resize(size, row)` (rows cloned). -/
def SquareMatrix.new (T : Type) (size : Nat) : Option (SquareMatrix T) :=
  if size = 0 then none
  else some { size := size, data := List.replicate size (List.replicate size none) }

/-- Embeds `SquareMatrix::get`: chase `data.get(row)` then `row.get(column)`;
either miss yields `None`. -/
def SquareMatrix.get {T : Type} (m : SquareMatrix T) (row column : Nat) : Option T :=
  match m.data[row]? with
  | some r =>
    match r[column]? with
    | some entry => entry
    | none => none
  | none => none

/-- Embeds `SquareMatrix::set`: write only when both `data.get_mut(row)` and
`row.get_mut(column)` succeed; otherwise do nothing. -/
def SquareMatrix.set {T : Type} (m : SquareMatrix T) (row column : Nat) (value : T) :
    SquareMatrix T :=
  match m.data[row]? with
  | some r =>
    if column < r.length then
      { m with data := m.data.set row (r.set column (some value)) }
    else m
  | none => m

/-- Embeds `SquareMatrix::set_all_to`: every entry of every row becomes
`Some(value.clone())`. -/
def SquareMatrix.set_all_to {T : Type} (m : SquareMatrix T) (value : T) : SquareMatrix T :=
  { m with data := m.data.map (fun row => row.map (fun _ => some value)) }

/-- Structural invariant of `SquareMatrix`: exactly `size` rows, each of
exactly `size` slots. -/
def SquareMatrix.WF {T : Type} (m : SquareMatrix T) : Prop :=
  m.data.length = m.size ∧ ∀ row ∈ m.data, row.length = m.size

end LinalgoStructs

namespace Linalgo

/-- Embeds the root crate's `square_matrix::SquareMatrix<T>`
(`src/src/lib.rs`), structurally identical storage. -/
structure SquareMatrix (T : Type) where
  size : Nat
  data : List (List (Option T))
deriving DecidableEq

/-- Embeds the root crate's `SquareMatrix::new`: panic on `size == 0`;
otherwise a loop pushes `size` rows, each freshly resized to `size` copies
of `None`. -/
def SquareMatrix.new (T : Type) (size : Nat) : Option (SquareMatrix T) :=
  if size = 0 then none
  else
    some { size := size,
           data := (List.range size).foldl
             (fun data _ => data ++ [List.replicate size (none : Option T)]) [] }

/-- Embeds the root crate's `SquareMatrix::get` (same text as the
`linalgo_structs` copy). -/
def SquareMatrix.get {T : Type} (m : SquareMatrix T) (row column : Nat) : Option T :=
  match m.data[row]? with
  | some r =>
    match r[column]? with
    | some entry => entry
    | none => none
  | none => none

/-- Embeds the root crate's `SquareMatrix::set` (same text as the
`linalgo_structs` copy). -/
def SquareMatrix.set {T : Type} (m : SquareMatrix T) (row column : Nat) (value : T) :
    SquareMatrix T :=
  match m.data[row]? with
  | some r =>
    if column < r.length then
      { m with data := m.data.set row (r.set column (some value)) }
    else m
  | none => m

/-- Embeds the root crate's `SquareMatrix::set_all_to`, which besides the
writes executes `eprintln!("awd")` once per entry: the second component is
the stderr trace, one `"awd"` line per iteration of the inner loop. -/
def SquareMatrix.set_all_to {T : Type} (m : SquareMatrix T) (value : T) :
    SquareMatrix T × List String :=
  ({ m with data := m.data.map (fun row => row.map (fun _ => some value)) },
   m.data.foldl (fun out row => row.foldl (fun out _ => out ++ ["awd"]) out) [])

end Linalgo

/-- A call against the `SquareMatrix` mutating API, used to compare the two
implementations over arbitrary call sequences. -/
inductive MatrixOp (T : Type) where
  | set (row column : Nat) (value : T)
  | setAllTo (value : T)
deriving DecidableEq

/-- Runs a sequence of mutating calls on the `linalgo_structs` matrix. -/
def LinalgoStructs.SquareMatrix.runOps {T : Type} (m : LinalgoStructs.SquareMatrix T) :
    List (MatrixOp T) → LinalgoStructs.SquareMatrix T
  | [] => m
  | MatrixOp.set r c v :: ops => (m.set r c v).runOps ops
  | MatrixOp.setAllTo v :: ops => (m.set_all_to v).runOps ops

/-- Runs a sequence of mutating calls on the root crate's matrix
(discarding the stderr trace, which does not affect stored state). -/
def Linalgo.SquareMatrix.runOps {T : Type} (m : Linalgo.SquareMatrix T) :
    List (MatrixOp T) → Linalgo.SquareMatrix T
  | [] => m
  | MatrixOp.set r c v :: ops => (m.set r c v).runOps ops
  | MatrixOp.setAllTo v :: ops => ((m.set_all_to v).1).runOps ops

namespace LinalgoStructs

theorem SquareMatrix.row_length {T : Type} {m : SquareMatrix T} (hm : m.WF)
    {r : Nat} (hr : r < m.data.length) : m.data[r].length = m.size :=
  hm.2 _ (List.getElem_mem hr)

theorem Vector.get_set_self {T : Type} (v : Vector T) (i : Nat) (x : T)
    (hi : i < v.data.length) : (v.set i x).get i = some x := by
  simp [Vector.set, Vector.get, hi, List.getElem?_set_eq_of_lt _ hi]

theorem SquareMatrix.get_set_self_mat {T : Type} (m : SquareMatrix T) (r c : Nat) (y : T)
    (hm : m.WF) (hr : r < m.size) (hc : c < m.size) :
    (m.set r c y).get r c = some y := by
  have hrl : r < m.data.length := by rw [hm.1]; exact hr
  have hcl : c < m.data[r].length := by rw [m.row_length hm hrl]; exact hc
  have hdr : m.data[r]? = some m.data[r] := List.getElem?_eq_getElem hrl
  simp only [SquareMatrix.set, hdr, hcl, if_pos]
  simp [SquareMatrix.get, List.getElem?_set_eq_of_lt _ hrl,
    List.getElem?_set_eq_of_lt _ hcl]

theorem Vector.get_set_all_to {T : Type} (v : Vector T) (i : Nat) (x : T)
    (hi : i < v.data.length) : (v.set_all_to x).get i = some x := by
  simp [Vector.set_all_to, Vector.get, List.getElem?_map,
    List.getElem?_eq_getElem hi, List.getElem?_replicate, hi]

theorem SquareMatrix.get_set_all_to_mat {T : Type} (m : SquareMatrix T) (r c : Nat) (y : T)
    (hm : m.WF) (hr : r < m.size) (hc : c < m.size) :
    (m.set_all_to y).get r c = some y := by
  have hrl : r < m.data.length := by rw [hm.1]; exact hr
  have hcl : c < m.data[r].length := by rw [m.row_length hm hrl]; exact hc
  simp [SquareMatrix.set_all_to, SquareMatrix.get, List.getElem?_map,
    List.getElem?_eq_getElem hrl, List.getElem?_eq_getElem hcl,
    List.getElem?_replicate, hcl]

end LinalgoStructs

/-- C1: for a well-formed vector and a well-formed square matrix, after
`set` at an in-bounds index (pair), `get` at that index (pair) returns the
value just written, whatever the prior content of the slot was. -/
theorem C1_set_then_get {T : Type} (v : LinalgoStructs.Vector T)
    (m : LinalgoStructs.SquareMatrix T) (i r c : Nat) (x y : T)
    (hv : v.WF) (hm : m.WF) (hi : i < v.size) (hr : r < m.size) (hc : c < m.size) :
    (v.set i x).get i = some x ∧ (m.set r c y).get r c = some y :=
  ⟨v.get_set_self i x (by rw [hv]; exact hi), m.get_set_self_mat r c y hm hr hc⟩

/-- C1 witness: a size-2 vector whose slot 1 already holds 9, and a size-2
matrix whose slot (0, 1) already holds 9; writing 5 then reading gives 5. -/
theorem C1_set_then_get_witness :
    (LinalgoStructs.Vector.set ⟨2, [none, some 9]⟩ 1 5).get 1 = some 5 ∧
    (LinalgoStructs.SquareMatrix.set ⟨2, [[none, some 9], [none, none]]⟩ 0 1 5).get 0 1 =
      some 5 :=
  C1_set_then_get ⟨2, [none, some 9]⟩ ⟨2, [[none, some 9], [none, none]]⟩ 1 0 1 5 5
    rfl ⟨rfl, by decide⟩ (by decide) (by decide) (by decide)

/-- C2: for a well-formed vector and a well-formed square matrix, after
`set_all_to v`, `get` at every in-bounds index (pair) returns the value,
so no slot is absent. -/
theorem C2_set_all_to_fills {T : Type} (v : LinalgoStructs.Vector T)
    (m : LinalgoStructs.SquareMatrix T) (i r c : Nat) (x y : T)
    (hv : v.WF) (hm : m.WF) (hi : i < v.size) (hr : r < m.size) (hc : c < m.size) :
    (v.set_all_to x).get i = some x ∧ (m.set_all_to y).get r c = some y :=
  ⟨v.get_set_all_to i x (by rw [hv]; exact hi), m.get_set_all_to_mat r c y hm hr hc⟩

/-- C2 witness: filling a size-2 vector and a size-2 matrix with 7 makes an
arbitrary in-bounds slot read back 7. -/
theorem C2_set_all_to_fills_witness :
    (LinalgoStructs.Vector.set_all_to ⟨2, [none, some 9]⟩ 7).get 0 = some 7 ∧
    (LinalgoStructs.SquareMatrix.set_all_to ⟨2, [[none, some 9], [none, none]]⟩ 7).get 1 1 =
      some 7 :=
  C2_set_all_to_fills ⟨2, [none, some 9]⟩ ⟨2, [[none, some 9], [none, none]]⟩ 0 1 1 7 7
    rfl ⟨rfl, by decide⟩ (by decide) (by decide) (by decide)

/-- C3: `new 0` fails fatally (embedded as `none`) for both container
types, `new n` succeeds for every `n >= 1`, and `n = 0` is the only
failure mode. -/
theorem C3_zero_size_construction_fails (T : Type) (n : Nat) :
    (LinalgoStructs.Vector.new T n = none ↔ n = 0) ∧
    (LinalgoStructs.SquareMatrix.new T n = none ↔ n = 0) := by
  rcases Nat.eq_zero_or_pos n with h | h
  · subst h
    simp [LinalgoStructs.Vector.new, LinalgoStructs.SquareMatrix.new]
  · have hne : n ≠ 0 := Nat.pos_iff_ne_zero.mp h
    simp [LinalgoStructs.Vector.new, LinalgoStructs.SquareMatrix.new, hne]

/-- C3 witness: size 0 fails for both containers and size 3 succeeds for
both. -/
theorem C3_zero_size_construction_fails_witness :
    LinalgoStructs.Vector.new Nat 0 = none ∧
    LinalgoStructs.SquareMatrix.new Nat 0 = none ∧
    LinalgoStructs.Vector.new Nat 3 ≠ none ∧
    LinalgoStructs.SquareMatrix.new Nat 3 ≠ none :=
  ⟨(C3_zero_size_construction_fails Nat 0).1.mpr rfl,
   (C3_zero_size_construction_fails Nat 0).2.mpr rfl,
   fun h => by simpa using (C3_zero_size_construction_fails Nat 3).1.mp h,
   fun h => by simpa using (C3_zero_size_construction_fails Nat 3).2.mp h⟩

/-- `set` with an out-of-range row or column (including partial validity)
leaves a well-formed matrix exactly unchanged. -/
theorem LinalgoStructs.SquareMatrix.set_out_of_range {T : Type}
    (m : LinalgoStructs.SquareMatrix T) (r c : Nat) (y : T)
    (hm : m.WF) (hrc : m.size ≤ r ∨ m.size ≤ c) : m.set r c y = m := by
  unfold LinalgoStructs.SquareMatrix.set
  rcases hrc with h | h
  · rw [List.getElem?_eq_none (by rw [hm.1]; exact h)]
  · cases hrow : m.data[r]? with
    | none => rfl
    | some row =>
        obtain ⟨hlt, hget⟩ := List.getElem?_eq_some_iff.mp hrow
        have hlen : row.length = m.size := hget ▸ hm.2 _ (List.getElem_mem hlt)
        simp [Nat.not_lt.mpr (hlen ▸ h)]

/-- C4: for a well-formed vector and a well-formed matrix, `set` at an
out-of-range position (for the matrix: out-of-range row or column,
partial validity included) is a silent no-op leaving the state exactly
unchanged, with no error (the embedded `set` is total). -/
theorem C4_out_of_range_set_is_noop {T : Type} (v : LinalgoStructs.Vector T)
    (m : LinalgoStructs.SquareMatrix T) (i r c : Nat) (x y : T)
    (hv : v.WF) (hm : m.WF) (hi : v.size ≤ i) (hrc : m.size ≤ r ∨ m.size ≤ c) :
    v.set i x = v ∧ m.set r c y = m := by
  refine ⟨?_, m.set_out_of_range r c y hm hrc⟩
  simp [LinalgoStructs.Vector.set, Nat.not_lt.mpr (hv ▸ hi)]

/-- C4 witness: writing at position 2 of a size-2 vector and at the pair
(0, 2) of a size-2 matrix (valid row, invalid column) changes nothing. -/
theorem C4_out_of_range_set_is_noop_witness :
    LinalgoStructs.Vector.set ⟨2, [none, some 9]⟩ 2 5 = ⟨2, [none, some 9]⟩ ∧
    LinalgoStructs.SquareMatrix.set ⟨2, [[none, some 9], [none, none]]⟩ 0 2 5 =
      ⟨2, [[none, some 9], [none, none]]⟩ :=
  C4_out_of_range_set_is_noop ⟨2, [none, some 9]⟩ ⟨2, [[none, some 9], [none, none]]⟩
    2 0 2 5 5 rfl ⟨rfl, by decide⟩ (by decide) (Or.inr (by decide))

/-- C5: `get` returns the single "absent" result (`none`) both at any
out-of-range index (pair) of a well-formed container and at an in-range
slot that is empty, so the two cases are indistinguishable from the
result, and neither is an error (the embedded `get` is total). -/
theorem C5_get_absent_conflation {T : Type} (v : LinalgoStructs.Vector T)
    (m : LinalgoStructs.SquareMatrix T) (i r c : Nat)
    (hv : v.WF) (hm : m.WF) :
    (v.size ≤ i → v.get i = none) ∧
    (v.data[i]? = some none → v.get i = none) ∧
    ((m.size ≤ r ∨ m.size ≤ c) → m.get r c = none) ∧
    (∀ row, m.data[r]? = some row → row[c]? = some none → m.get r c = none) := by
  refine ⟨?_, ?_, ?_, ?_⟩
  · intro h
    simp [LinalgoStructs.Vector.get, List.getElem?_eq_none (hv ▸ h : v.data.length ≤ i)]
  · intro h
    simp [LinalgoStructs.Vector.get, h]
  · intro h
    unfold LinalgoStructs.SquareMatrix.get
    rcases h with h | h
    · rw [List.getElem?_eq_none (by rw [hm.1]; exact h)]
    · cases hrow : m.data[r]? with
      | none => rfl
      | some row =>
          obtain ⟨hlt, hget⟩ := List.getElem?_eq_some_iff.mp hrow
          have hlen : row.length = m.size := hget ▸ hm.2 _ (List.getElem_mem hlt)
          simp [List.getElem?_eq_none (by rw [hlen]; exact h : row.length ≤ c)]
  · intro row hrow hslot
    simp [LinalgoStructs.SquareMatrix.get, hrow, hslot]

/-- C5 witness: on a size-2 vector, position 5 (out of range) and position
0 (in range, empty) both read as absent; on a size-2 matrix, the pair
(0, 2) (valid row, invalid column) and the pair (1, 1) (in range, empty)
both read as absent. -/
theorem C5_get_absent_conflation_witness :
    LinalgoStructs.Vector.get ⟨2, [none, some 3]⟩ 5 = none ∧
    LinalgoStructs.Vector.get ⟨2, [none, some 3]⟩ 0 = none ∧
    LinalgoStructs.SquareMatrix.get ⟨2, [[none, some 3], [some 4, none]]⟩ 0 2 = none ∧
    LinalgoStructs.SquareMatrix.get ⟨2, [[none, some 3], [some 4, none]]⟩ 1 1 = none :=
  ⟨(C5_get_absent_conflation ⟨2, [none, some 3]⟩ ⟨2, [[none, some 3], [some 4, none]]⟩
      5 0 0 rfl ⟨rfl, by decide⟩).1 (by decide),
   (C5_get_absent_conflation ⟨2, [none, some 3]⟩ ⟨2, [[none, some 3], [some 4, none]]⟩
      0 0 0 rfl ⟨rfl, by decide⟩).2.1 (by decide),
   (C5_get_absent_conflation ⟨2, [none, some 3]⟩ ⟨2, [[none, some 3], [some 4, none]]⟩
      0 0 2 rfl ⟨rfl, by decide⟩).2.2.1 (Or.inr (by decide)),
   (C5_get_absent_conflation ⟨2, [none, some 3]⟩ ⟨2, [[none, some 3], [some 4, none]]⟩
      0 1 1 rfl ⟨rfl, by decide⟩).2.2.2 [some 4, none] (by decide) (by decide)⟩

theorem LinalgoStructs.Vector.new_eq_some {T : Type} {n : Nat}
    {v : LinalgoStructs.Vector T} (h : LinalgoStructs.Vector.new T n = some v) :
    v = ⟨n, List.replicate n none⟩ ∧ n ≠ 0 := by
  unfold LinalgoStructs.Vector.new at h
  by_cases hn : n = 0
  · simp [hn] at h
  · simp [hn] at h
    exact ⟨h.symm, hn⟩

theorem LinalgoStructs.SquareMatrix.new_eq_some_mat {T : Type} {n : Nat}
    {m : LinalgoStructs.SquareMatrix T} (h : LinalgoStructs.SquareMatrix.new T n = some m) :
    m = ⟨n, List.replicate n (List.replicate n none)⟩ ∧ n ≠ 0 := by
  unfold LinalgoStructs.SquareMatrix.new at h
  by_cases hn : n = 0
  · simp [hn] at h
  · simp [hn] at h
    exact ⟨h.symm, hn⟩

/-- C6: immediately after `new n` (with `n >= 1`) and before any write,
`get` returns absent (`none`) at every valid position of the vector and
every valid pair of the matrix: fresh containers hold only empty slots. -/
theorem C6_fresh_container_all_absent (T : Type) (n i r c : Nat)
    (v : LinalgoStructs.Vector T) (m : LinalgoStructs.SquareMatrix T)
    (hv : LinalgoStructs.Vector.new T n = some v)
    (hm : LinalgoStructs.SquareMatrix.new T n = some m)
    (hi : i < n) (hr : r < n) (hc : c < n) :
    v.get i = none ∧ m.get r c = none := by
  obtain ⟨rfl, -⟩ := LinalgoStructs.Vector.new_eq_some hv
  obtain ⟨rfl, -⟩ := LinalgoStructs.SquareMatrix.new_eq_some_mat hm
  constructor
  · simp [LinalgoStructs.Vector.get, List.getElem?_replicate, hi]
  · simp [LinalgoStructs.SquareMatrix.get, List.getElem?_replicate, hr, hc]

/-- C6 witness: a fresh size-2 vector reads absent at 1; a fresh size-2
matrix reads absent at (1, 0). -/
theorem C6_fresh_container_all_absent_witness :
    LinalgoStructs.Vector.get (⟨2, [none, none]⟩ : LinalgoStructs.Vector Nat) 1 = none ∧
    LinalgoStructs.SquareMatrix.get
      (⟨2, [[none, none], [none, none]]⟩ : LinalgoStructs.SquareMatrix Nat) 1 0 = none :=
  C6_fresh_container_all_absent Nat 2 1 1 0 ⟨2, [none, none]⟩
    ⟨2, [[none, none], [none, none]]⟩ (by decide) (by decide)
    (by decide) (by decide) (by decide)

/-- C7: for every `n >= 1`, `new n` yields a container whose `size()` is
`n`, for both container types; the embedded `size` is a pure field read
(Rust `&self`), total and non-mutating by construction. -/
theorem C7_new_size (T : Type) (n : Nat)
    (v : LinalgoStructs.Vector T) (m : LinalgoStructs.SquareMatrix T)
    (hv : LinalgoStructs.Vector.new T n = some v)
    (hm : LinalgoStructs.SquareMatrix.new T n = some m) :
    v.size = n ∧ m.size = n := by
  obtain ⟨rfl, -⟩ := LinalgoStructs.Vector.new_eq_some hv
  obtain ⟨rfl, -⟩ := LinalgoStructs.SquareMatrix.new_eq_some_mat hm
  exact ⟨rfl, rfl⟩

/-- C7 witness: `new 3` for both containers reports size 3. -/
theorem C7_new_size_witness :
    LinalgoStructs.Vector.size (⟨3, [none, none, none]⟩ : LinalgoStructs.Vector Nat) = 3 ∧
    LinalgoStructs.SquareMatrix.size
      (⟨3, [[none, none, none], [none, none, none], [none, none, none]]⟩ :
        LinalgoStructs.SquareMatrix Nat) = 3 :=
  C7_new_size Nat 3 ⟨3, [none, none, none]⟩
    ⟨3, [[none, none, none], [none, none, none], [none, none, none]]⟩
    (by decide) (by decide)

theorem LinalgoStructs.Vector.new_WF {T : Type} {n : Nat} {v : LinalgoStructs.Vector T}
    (h : LinalgoStructs.Vector.new T n = some v) : v.WF := by
  obtain ⟨rfl, -⟩ := LinalgoStructs.Vector.new_eq_some h
  simp [LinalgoStructs.Vector.WF]

theorem LinalgoStructs.SquareMatrix.new_WF_mat {T : Type} {n : Nat}
    {m : LinalgoStructs.SquareMatrix T} (h : LinalgoStructs.SquareMatrix.new T n = some m) :
    m.WF := by
  obtain ⟨rfl, -⟩ := LinalgoStructs.SquareMatrix.new_eq_some_mat h
  constructor
  · simp
  · intro row hrow
    simp only [List.eq_of_mem_replicate hrow]
    simp

theorem LinalgoStructs.Vector.set_WF {T : Type} (v : LinalgoStructs.Vector T)
    (i : Nat) (x : T) (hv : v.WF) : (v.set i x).WF := by
  unfold LinalgoStructs.Vector.set
  split
  · show (v.data.set i (some x)).length = v.size
    rw [List.length_set]
    exact hv
  · exact hv

theorem LinalgoStructs.Vector.set_size {T : Type} (v : LinalgoStructs.Vector T)
    (i : Nat) (x : T) : (v.set i x).size = v.size := by
  unfold LinalgoStructs.Vector.set
  split <;> rfl

theorem LinalgoStructs.Vector.set_all_to_WF {T : Type} (v : LinalgoStructs.Vector T)
    (x : T) (hv : v.WF) : (v.set_all_to x).WF := by
  simp [LinalgoStructs.Vector.set_all_to, LinalgoStructs.Vector.WF]
  exact hv

theorem LinalgoStructs.SquareMatrix.set_WF_mat {T : Type} (m : LinalgoStructs.SquareMatrix T)
    (r c : Nat) (y : T) (hm : m.WF) : (m.set r c y).WF := by
  cases hrow : m.data[r]? with
  | none => simpa only [LinalgoStructs.SquareMatrix.set, hrow] using hm
  | some row =>
      simp only [LinalgoStructs.SquareMatrix.set, hrow]
      split
      · obtain ⟨hlt, hget⟩ := List.getElem?_eq_some_iff.mp hrow
        have hrowmem : row ∈ m.data := hget ▸ List.getElem_mem hlt
        refine ⟨?_, ?_⟩
        · show (m.data.set r (row.set c (some y))).length = m.size
          rw [List.length_set]
          exact hm.1
        · intro row' hmem
          rcases List.mem_or_eq_of_mem_set hmem with h | h
          · exact hm.2 _ h
          · subst h
            show (row.set c (some y)).length = m.size
            rw [List.length_set]
            exact hm.2 _ hrowmem
      · exact hm

theorem LinalgoStructs.SquareMatrix.set_size_mat {T : Type} (m : LinalgoStructs.SquareMatrix T)
    (r c : Nat) (y : T) : (m.set r c y).size = m.size := by
  cases hrow : m.data[r]? with
  | none => simp only [LinalgoStructs.SquareMatrix.set, hrow]
  | some row =>
      simp only [LinalgoStructs.SquareMatrix.set, hrow]
      split <;> rfl

theorem LinalgoStructs.SquareMatrix.set_all_to_WF_mat {T : Type}
    (m : LinalgoStructs.SquareMatrix T) (y : T) (hm : m.WF) : (m.set_all_to y).WF := by
  refine ⟨by simp [LinalgoStructs.SquareMatrix.set_all_to, hm.1], ?_⟩
  intro row' hmem
  simp only [LinalgoStructs.SquareMatrix.set_all_to, List.mem_map] at hmem
  obtain ⟨row, hrow, rfl⟩ := hmem
  simp [LinalgoStructs.SquareMatrix.set_all_to, hm.2 _ hrow]

/-- C8: the structural invariant (the vector stores exactly `size` slots;
the matrix stores exactly `size` rows of exactly `size` slots) holds after
`new` and is preserved by `set` and `set_all_to`, and the `size` field never
changes under any mutation (`get` and `size` read without mutating by
construction of the embedding). -/
theorem C8_structural_invariants {T : Type} (n i r c : Nat) (x y : T)
    (v : LinalgoStructs.Vector T) (m : LinalgoStructs.SquareMatrix T)
    (hv : v.WF) (hm : m.WF) :
    (∀ v0 : LinalgoStructs.Vector T, LinalgoStructs.Vector.new T n = some v0 → v0.WF) ∧
    (v.set i x).WF ∧ (v.set i x).size = v.size ∧
    (v.set_all_to x).WF ∧ (v.set_all_to x).size = v.size ∧
    (∀ m0 : LinalgoStructs.SquareMatrix T,
      LinalgoStructs.SquareMatrix.new T n = some m0 → m0.WF) ∧
    (m.set r c y).WF ∧ (m.set r c y).size = m.size ∧
    (m.set_all_to y).WF ∧ (m.set_all_to y).size = m.size :=
  ⟨fun _ h => LinalgoStructs.Vector.new_WF h,
   v.set_WF i x hv, v.set_size i x,
   v.set_all_to_WF x hv, rfl,
   fun _ h => LinalgoStructs.SquareMatrix.new_WF_mat h,
   m.set_WF_mat r c y hm, m.set_size_mat r c y,
   m.set_all_to_WF_mat y hm, rfl⟩

/-- C8 witness: the invariant conjuncts instantiated on a concrete size-2
vector and size-2 matrix, including the freshly constructed containers. -/
theorem C8_structural_invariants_witness :
    (LinalgoStructs.Vector.set ⟨2, [none, some 9]⟩ 0 5).WF ∧
    (LinalgoStructs.Vector.set ⟨2, [none, some 9]⟩ 0 5).size = 2 ∧
    (LinalgoStructs.Vector.set_all_to ⟨2, [none, some 9]⟩ 7).WF ∧
    (LinalgoStructs.SquareMatrix.set ⟨2, [[none, some 9], [none, none]]⟩ 1 0 5).WF ∧
    (LinalgoStructs.SquareMatrix.set ⟨2, [[none, some 9], [none, none]]⟩ 1 0 5).size = 2 ∧
    (LinalgoStructs.SquareMatrix.set_all_to ⟨2, [[none, some 9], [none, none]]⟩ 7).WF ∧
    LinalgoStructs.Vector.WF ⟨2, [none, (none : Option Nat)]⟩ ∧
    LinalgoStructs.SquareMatrix.WF ⟨2, [[none, none], [none, (none : Option Nat)]]⟩ := by
  have h := C8_structural_invariants 2 0 1 0 5 5
    (⟨2, [none, some 9]⟩ : LinalgoStructs.Vector Nat)
    (⟨2, [[none, some 9], [none, none]]⟩ : LinalgoStructs.SquareMatrix Nat)
    rfl ⟨rfl, by decide⟩
  have h7 := C8_structural_invariants 2 0 1 0 7 7
    (⟨2, [none, some 9]⟩ : LinalgoStructs.Vector Nat)
    (⟨2, [[none, some 9], [none, none]]⟩ : LinalgoStructs.SquareMatrix Nat)
    rfl ⟨rfl, by decide⟩
  exact ⟨h.2.1, h.2.2.1, h7.2.2.2.1, h.2.2.2.2.2.2.1, h.2.2.2.2.2.2.2.1,
    h7.2.2.2.2.2.2.2.2.1, h.1 ⟨2, [none, none]⟩ rfl, h.2.2.2.2.2.1 ⟨2, [[none, none], [none, none]]⟩ rfl⟩

/-- C9: the root crate's `SquareMatrix::set_all_to` (`src/src/lib.rs`)
executes `eprintln!("awd")` in its inner loop, so it performs I/O: already
on a freshly built 1-by-1 matrix the call writes one line to stderr. -/
theorem C9_set_all_to_emits_stderr :
    (Linalgo.SquareMatrix.new Nat 1).map
      (fun m => (Linalgo.SquareMatrix.set_all_to m 0).2) = some ["awd"] := rfl

theorem Linalgo.foldl_push_replicate {α : Type} (row : α) (n : Nat) (acc : List α) :
    (List.range n).foldl (fun data _ => data ++ [row]) acc =
      acc ++ List.replicate n row := by
  induction n generalizing acc with
  | zero => simp
  | succ k ih =>
      rw [List.range_succ, List.foldl_append, ih]
      simp [List.replicate_succ']

/-- The two `SquareMatrix` embeddings have the same state representation;
this coercion relates them. -/
def Linalgo.SquareMatrix.toStructs {T : Type} (m : Linalgo.SquareMatrix T) :
    LinalgoStructs.SquareMatrix T :=
  ⟨m.size, m.data⟩

theorem Linalgo.SquareMatrix.new_toStructs (T : Type) (n : Nat) :
    (Linalgo.SquareMatrix.new T n).map Linalgo.SquareMatrix.toStructs =
      LinalgoStructs.SquareMatrix.new T n := by
  by_cases hn : n = 0
  · simp [hn, Linalgo.SquareMatrix.new, LinalgoStructs.SquareMatrix.new]
  · simp [hn, Linalgo.SquareMatrix.new, LinalgoStructs.SquareMatrix.new,
      Linalgo.SquareMatrix.toStructs, Linalgo.foldl_push_replicate]

theorem Linalgo.SquareMatrix.set_toStructs {T : Type} (m : Linalgo.SquareMatrix T)
    (r c : Nat) (v : T) : (m.set r c v).toStructs = m.toStructs.set r c v := by
  cases hrow : m.data[r]? with
  | none =>
      simp only [Linalgo.SquareMatrix.set, LinalgoStructs.SquareMatrix.set,
        Linalgo.SquareMatrix.toStructs, hrow]
  | some row =>
      simp only [Linalgo.SquareMatrix.set, LinalgoStructs.SquareMatrix.set,
        Linalgo.SquareMatrix.toStructs, hrow]
      split <;> rfl

theorem Linalgo.SquareMatrix.set_all_to_toStructs {T : Type} (m : Linalgo.SquareMatrix T)
    (v : T) : ((m.set_all_to v).1).toStructs = m.toStructs.set_all_to v := rfl

theorem Linalgo.SquareMatrix.get_toStructs {T : Type} (m : Linalgo.SquareMatrix T)
    (r c : Nat) : m.get r c = m.toStructs.get r c := rfl

theorem Linalgo.SquareMatrix.runOps_toStructs {T : Type} (m : Linalgo.SquareMatrix T)
    (ops : List (MatrixOp T)) : (m.runOps ops).toStructs = m.toStructs.runOps ops := by
  induction ops generalizing m with
  | nil => rfl
  | cons op ops ih =>
      cases op with
      | set r c v =>
          simp only [Linalgo.SquareMatrix.runOps, LinalgoStructs.SquareMatrix.runOps,
            ih, Linalgo.SquareMatrix.set_toStructs]
      | setAllTo v =>
          simp only [Linalgo.SquareMatrix.runOps, LinalgoStructs.SquareMatrix.runOps,
            ih, Linalgo.SquareMatrix.set_all_to_toStructs]

/-- C10: the two `SquareMatrix` implementations are observationally
equivalent on stored state: starting from `new n` (any `n >= 1`, where both
succeed) and running any sequence of `set` / `set_all_to` calls with the
same arguments, both report the same `size()` and the same `get` result at
every index pair. -/
theorem C10_implementations_equivalent (T : Type) (n : Nat) (ops : List (MatrixOp T))
    (m1 : Linalgo.SquareMatrix T) (m2 : LinalgoStructs.SquareMatrix T)
    (h1 : Linalgo.SquareMatrix.new T n = some m1)
    (h2 : LinalgoStructs.SquareMatrix.new T n = some m2) :
    (m1.runOps ops).size = (m2.runOps ops).size ∧
    ∀ r c, (m1.runOps ops).get r c = (m2.runOps ops).get r c := by
  have hts : m1.toStructs = m2 := by
    have h := Linalgo.SquareMatrix.new_toStructs T n
    rw [h1, h2] at h
    exact Option.some.inj h
  have hrun : (m1.runOps ops).toStructs = m2.runOps ops := by
    rw [Linalgo.SquareMatrix.runOps_toStructs, hts]
  constructor
  · rw [← hrun]
    rfl
  · intro r c
    rw [Linalgo.SquareMatrix.get_toStructs, hrun]

/-- C10 witness: from size 2, after an in-bounds write, a bulk fill and an
out-of-bounds write, both implementations agree on `size()` and on `get`
at the pair (0, 1). -/
theorem C10_implementations_equivalent_witness :
    (Linalgo.SquareMatrix.runOps ⟨2, [[none, none], [none, none]]⟩
        [MatrixOp.set 0 1 5, MatrixOp.setAllTo 7, MatrixOp.set 5 0 9]).size =
      (LinalgoStructs.SquareMatrix.runOps ⟨2, [[none, none], [none, none]]⟩
        [MatrixOp.set 0 1 5, MatrixOp.setAllTo 7, MatrixOp.set 5 0 9]).size ∧
    (Linalgo.SquareMatrix.runOps ⟨2, [[none, none], [none, none]]⟩
        [MatrixOp.set 0 1 5, MatrixOp.setAllTo 7, MatrixOp.set 5 0 9]).get 0 1 =
      (LinalgoStructs.SquareMatrix.runOps ⟨2, [[none, none], [none, none]]⟩
        [MatrixOp.set 0 1 5, MatrixOp.setAllTo 7, MatrixOp.set 5 0 9]).get 0 1 :=
  ⟨(C10_implementations_equivalent Nat 2
      [MatrixOp.set 0 1 5, MatrixOp.setAllTo 7, MatrixOp.set 5 0 9]
      ⟨2, [[none, none], [none, none]]⟩ ⟨2, [[none, none], [none, none]]⟩
      (by decide) (by decide)).1,
   (C10_implementations_equivalent Nat 2
      [MatrixOp.set 0 1 5, MatrixOp.setAllTo 7, MatrixOp.set 5 0 9]
      ⟨2, [[none, none], [none, none]]⟩ ⟨2, [[none, none], [none, none]]⟩
      (by decide) (by decide)).2 0 1⟩
